import Mathlib

/-!
Shallow embedding of `src/check.py` (a Sui wallet balance checker) and proofs
about the claims of its specification.

Network effects are modelled by explicit transport functions: a transport maps
the index of a request (counting the requests a single call issues, in order)
to the response the remote end gives.  Shared mutable caches are threaded as
explicit values; each embedded function returns its result together with the
updated cache and the number of remote requests it issued, so that caching and
retry behaviour are observable.  Monetary amounts are rationals; the rendering
of an amount to a decimal string is abstracted into a `Display` value carrying
the exact numbers shown.
-/

namespace SuiChecker

/-- `MAX_RETRIES` from check.py line 23. -/
def MAX_RETRIES : Nat := 3

/-- `PRICE_CACHE_DURATION` (seconds) from check.py line 20. -/
def PRICE_CACHE_DURATION : ℚ := 300

/-- `MIN_TOKEN_VALUE` (dollars) from check.py line 21. -/
def MIN_TOKEN_VALUE : ℚ := 0.05

/-- Association-list lookup with string keys (embeds Python dict lookup; updates
are modelled by prepending, so the first match is the current value). -/
def alookup {β : Type} : List (String × β) → String → Option β
  | [], _ => none
  | (k, v) :: rest, key => if k = key then some v else alookup rest key

/-- Outcome of one JSON-RPC POST to the Sui node, as the retry loops observe it:
either an HTTP success whose body may or may not carry a usable `result` field
(`ok none` models an absent or null `result`), or a `requests` exception
(timeout / connection failure). -/
inductive RpcResp where
  | ok (result : Option Nat)
  | netErr
deriving DecidableEq

/-- The inner `for attempt in range(MAX_RETRIES)` loop shared by the RPC
helpers (check.py lines 144-160, 172-184, 194-208, 219-232): issue up to `fuel`
requests starting at request index `k`; stop at the first HTTP success and
return its `result` field, or `none` when every attempt raised.  The second
component counts the requests issued. -/
def rpcAttempts (transport : Nat → RpcResp) : Nat → Nat → Option (Option Nat) × Nat
  | _, 0 => (none, 0)
  | k, fuel + 1 =>
    match transport k with
    | RpcResp.ok r => (some r, 1)
    | RpcResp.netErr =>
      let res := rpcAttempts transport (k + 1) fuel
      (res.1, res.2 + 1)

/-- `proxies or [None]` (check.py lines 98 and 143): the sequence the outer
proxy loop iterates over; never empty. -/
def proxySeq (proxies : List String) : List (Option String) :=
  if proxies = [] then [none] else proxies.map some

/-- Outer `for proxy in proxies or [None]` loop of `get_token_decimals`
(check.py lines 143-162).  The terminal `return 9` on line 162 is indented
inside the `for proxy` loop body, so every iteration of the loop returns from
the function: on HTTP success the decoded decimals (defaulting to 9 when the
`result` field is absent, line 150) are stored in the cache and returned
(lines 151-153), and when the first proxy's retries are exhausted the fallback
9 is returned without touching the cache.  The loop body therefore runs at
most once and the `[]` case below is unreachable (`proxySeq` is never empty).
Result: (decimals, updated cache, number of requests issued). -/
def decimalsProxyLoop (transport : Nat → RpcResp) (token_type : String)
    (cache : List (String × Nat)) :
    List (Option String) → Nat × List (String × Nat) × Nat
  | [] => (9, cache, 0)
  | _proxy :: _rest =>
    match rpcAttempts transport 0 MAX_RETRIES with
    | (some r, used) =>
      let d := r.getD 9
      (d, (token_type, d) :: cache, used)
    | (none, used) => (9, cache, used)

/-- `get_token_decimals` (check.py lines 131-162): consult the decimals cache
first (lines 133-135, no request on a hit) and otherwise run the proxy/retry
loop.  Result: (decimals, updated cache, number of requests issued). -/
def get_token_decimals (transport : Nat → RpcResp) (token_type : String)
    (proxies : List String) (cache : List (String × Nat)) :
    Nat × List (String × Nat) × Nat :=
  match alookup cache token_type with
  | some d => (d, cache, 0)
  | none => decimalsProxyLoop transport token_type cache (proxySeq proxies)

/-- Outcome of one GET to the CoinGecko price feed: HTTP success carrying the
decoded body (a map from CoinGecko id to its usd price; the inner
`{"usd": ...}` level is absorbed), an HTTP 429, another HTTP error, or a
`requests` exception. -/
inductive RestResp where
  | ok (data : List (String × ℚ))
  | http429
  | httpErr
  | netErr
deriving DecidableEq

/-- Result of the price feed's attempt loop: first successful body, or terminal
failure; `used` counts the requests issued. -/
inductive PriceOutcome where
  | success (data : List (String × ℚ)) (used : Nat)
  | failure (used : Nat)
deriving DecidableEq

/-- The inner `for attempt in range(MAX_RETRIES)` loop of `get_token_prices`
(check.py lines 99-128): an HTTP success returns its body; an HTTP 429 sleeps
60 s and `continue`s, which advances to the NEXT value of `attempt` (lines
116-119), so a 429 consumes an attempt; a non-429 HTTP error returns the zero
mapping at once (lines 120-121, modelled as terminal failure); a network error
retries until the attempts are exhausted (lines 122-128). -/
def priceAttempts (transport : Nat → RestResp) : Nat → Nat → PriceOutcome
  | _, 0 => PriceOutcome.failure 0
  | k, fuel + 1 =>
    match transport k with
    | RestResp.ok data => PriceOutcome.success data 1
    | RestResp.http429 =>
      match priceAttempts transport (k + 1) fuel with
      | PriceOutcome.success d u => PriceOutcome.success d (u + 1)
      | PriceOutcome.failure u => PriceOutcome.failure (u + 1)
    | RestResp.httpErr => PriceOutcome.failure 1
    | RestResp.netErr =>
      match priceAttempts transport (k + 1) fuel with
      | PriceOutcome.success d u => PriceOutcome.success d (u + 1)
      | PriceOutcome.failure u => PriceOutcome.failure (u + 1)

/-- `symbol_to_id` (check.py lines 86-95). -/
def symbol_to_id : List (String × String) :=
  [("SUI", "sui"), ("USDC", "usd-coin"), ("USDT", "tether"),
   ("BUCK", "bucket-protocol-buck-stablecoin"), ("AFSUI", "aftermath-staked-sui"),
   ("NS", "suins-token"), ("WAL", "walrus-2"), ("CERT", "volo-staked-sui")]

/-- `symbol.lower()` (embeds Python `str.lower` character-wise). -/
def lowerStr (s : String) : String := String.mk (s.toList.map Char.toLower)

/-- `symbol_to_id.get(symbol, symbol.lower())` (check.py line 96). -/
def coinGeckoId (symbol : String) : String :=
  (alookup symbol_to_id symbol).getD (lowerStr symbol)

/-- The price dictionary built from a successful feed response (check.py
lines 109-110): every requested symbol is mapped, missing ids giving 0.0. -/
def buildPrices (data : List (String × ℚ)) (token_symbols : List String) :
    List (String × ℚ) :=
  token_symbols.map (fun s => (s, (alookup data (coinGeckoId s)).getD 0))

/-- The all-zero price mapping returned on failure (check.py lines 121, 129). -/
def zeroPrices (token_symbols : List String) : List (String × ℚ) :=
  token_symbols.map (fun s => (s, (0 : ℚ)))

/-- The cache-freshness check of `get_token_prices` (check.py lines 82-84):
the cache is a single optional snapshot (prices, timestamp); a hit requires
`now - timestamp < PRICE_CACHE_DURATION`. -/
def priceFresh (cache : Option (List (String × ℚ) × ℚ)) (now : ℚ) :
    Option (List (String × ℚ)) :=
  match cache with
  | some (p, ts) => if now - ts < PRICE_CACHE_DURATION then some p else none
  | none => none

/-- Outer `for proxy in proxies or [None]` loop of `get_token_prices`
(check.py lines 98-129).  As in `decimalsProxyLoop`, the terminal
`return {symbol: 0.0 ...}` on line 129 is indented inside the `for proxy`
loop, so the body runs at most once and the `[]` case is unreachable.
On success the snapshot is written to the cache (lines 111-113).
Result: (price mapping, updated cache, number of requests issued). -/
def pricesProxyLoop (transport : Nat → RestResp) (token_symbols : List String)
    (cache : Option (List (String × ℚ) × ℚ)) (now : ℚ) :
    List (Option String) → List (String × ℚ) × Option (List (String × ℚ) × ℚ) × Nat
  | [] => (zeroPrices token_symbols, cache, 0)
  | _proxy :: _rest =>
    match priceAttempts transport 0 MAX_RETRIES with
    | PriceOutcome.success data used =>
      let prices := buildPrices data token_symbols
      (prices, some (prices, now), used)
    | PriceOutcome.failure used => (zeroPrices token_symbols, cache, used)

/-- `get_token_prices` (check.py lines 80-129): serve the cached snapshot when
fresh (no request), otherwise run the proxy/retry loop.
Result: (price mapping, updated cache, number of requests issued). -/
def get_token_prices (transport : Nat → RestResp) (token_symbols : List String)
    (proxies : List String) (cache : Option (List (String × ℚ) × ℚ)) (now : ℚ) :
    List (String × ℚ) × Option (List (String × ℚ) × ℚ) × Nat :=
  match priceFresh cache now with
  | some p => (p, cache, 0)
  | none => pricesProxyLoop transport token_symbols cache now (proxySeq proxies)

/-- A JSON-RPC request body, as far as the claims need it: the method name and
its positional params. -/
structure RpcPayload where
  method : String
  params : List String
deriving DecidableEq

/-- `get_token_balance` (check.py lines 210-232): read the decimals cache with
default 9 and WITHOUT taking the cache lock or triggering any metadata lookup
(line 212), then POST `suix_getBalance` with up to MAX_RETRIES attempts through
the single given proxy; on HTTP success decode `result.totalBalance`
(defaulting to 0 when `result` is absent, line 225) and divide by
`10 ** decimals`; on exhaustion return 0.0.  The second component is the list
of request payloads the call issued. -/
def get_token_balance (transport : Nat → RpcResp) (wallet_address token_type : String)
    (cache : List (String × Nat)) : ℚ × List RpcPayload :=
  let decimals := (alookup cache token_type).getD 9
  let payload : RpcPayload := ⟨"suix_getBalance", [wallet_address, token_type]⟩
  match rpcAttempts transport 0 MAX_RETRIES with
  | (some r, used) => (((r.getD 0 : Nat) : ℚ) / 10 ^ decimals, List.replicate used payload)
  | (none, used) => ((0 : ℚ), List.replicate used payload)

/-- Helper for `token_type.split("::")` (check.py line 246): split a character
list on the two-character separator `::`, scanning left to right without
overlap, exactly as Python `str.split` does. -/
def segsDC : List Char → List (List Char)
  | [] => [[]]
  | [c] => [[c]]
  | c1 :: c2 :: rest =>
    if c1 = ':' ∧ c2 = ':' then [] :: segsDC rest
    else
      match segsDC (c2 :: rest) with
      | [] => [[c1]]
      | seg :: segs => (c1 :: seg) :: segs

/-- `get_token_symbol` (check.py lines 244-247): the last `::`-separated
segment, or the whole string when there is no separator. -/
def get_token_symbol (token_type : String) : String :=
  let parts := segsDC token_type.toList
  if parts.length > 1 then String.mk (parts.getLastD []) else token_type

/-- `shorten_address` (check.py lines 74-78): note the threshold compares the
length against `prefix_len + suffix_len + 3`, the extra 3 accounting for the
ellipsis, so only addresses longer than 11 characters are shortened. -/
def shorten_address (address : String) (preLen : Nat := 5) (sufLen : Nat := 3) : String :=
  let cs := address.toList
  if cs.length > preLen + sufLen + 3 then
    String.mk (cs.take preLen ++ "...".toList ++ cs.drop (cs.length - sufLen))
  else address

/-- What a rendered balance cell shows (check.py lines 249-256): a dash for a
zero balance, the bare amount with a price-unavailable note when the price is
0.0, otherwise the amount with its dollar value.  The decimal formatting of
the numbers is abstracted; the carried rationals are the exact values shown. -/
inductive Display where
  | dash
  | noPrice (balance : ℚ)
  | withValue (balance value : ℚ)
deriving DecidableEq

/-- `format_balance` (check.py lines 249-256). -/
def format_balance (balance price : ℚ) : Display :=
  if balance = 0 then Display.dash
  else if price = 0 then Display.noPrice balance
  else Display.withValue balance (balance * price)

/-- `prices.get(symbol, 0.0)`: price lookup with the 0.0 default. -/
def priceOf (prices : List (String × ℚ)) (symbol : String) : ℚ :=
  (alookup prices symbol).getD 0

/-- The rendering of the total-value cell (check.py lines 289, 415): the
dollar amount when positive, otherwise a price-unavailable note. -/
inductive TotalDisp where
  | unavailable
  | value (v : ℚ)
deriving DecidableEq

/-- One outcome of `get_all_balances` for a fixed wallet (check.py lines
234-242): the SUI balance, the staked SUI, and the per-token-type balances,
all already precision-converted.  `process_wallet` is parameterised by a
function from the proxy used to such an outcome, abstracting the three
RPC helpers it calls. -/
structure WalletFetch where
  sui_balance : ℚ
  staked_sui : ℚ
  tokenBal : String → ℚ

/-- `proxies[i % len(proxies)] if proxies else None` (check.py line 261). -/
def proxyAt (proxies : List String) (i : Nat) : Option String :=
  match proxies with
  | [] => none
  | p :: rest => some ((p :: rest).getD (i % (p :: rest).length) p)

/-- The truthiness test `sui_balance or staked_sui or any(token_balances.values())`
(check.py line 266): some fetched balance is non-zero. -/
def anySignal (token_types : List String) (f : WalletFetch) : Bool :=
  decide (f.sui_balance ≠ 0) || decide (f.staked_sui ≠ 0)
    || token_types.any (fun t => decide (f.tokenBal t ≠ 0))

/-- The per-wallet proxy retry loop of `process_wallet` (check.py lines
260-268): run `get_all_balances` with the proxy at rotation index
`index - 1 + attempt`; stop early on any non-zero signal, otherwise move to
the next proxy; the values of the last executed attempt are kept.  `remaining`
counts the loop iterations still to run and starts at
`len(proxies) if proxies else 1`, so it is positive and the `0` fuel case is
unreachable. -/
def walletFetchLoop (fetchAll : Option String → WalletFetch) (proxies : List String)
    (token_types : List String) (index : Nat) : Nat → Nat → WalletFetch
  | attempt, 0 => fetchAll (proxyAt proxies (index - 1 + attempt))
  | attempt, remaining + 1 =>
    let f := fetchAll (proxyAt proxies (index - 1 + attempt))
    if remaining = 0 then f
    else if anySignal token_types f then f
    else walletFetchLoop fetchAll proxies token_types index (attempt + 1) remaining

/-- The body of the `for token in token_types` loop of `process_wallet`
(check.py lines 277-286), folded over an accumulator
(af_sui_balance, v_sui_balance, total_value, formatted_balances):
remember the balance of a token whose symbol is AFSUI or CERT (plain
assignment, so a later occurrence overwrites an earlier one), add
`balance * price` to the running total only when the price is positive, and
record the formatted cell for every token. -/
def wallet_step (f : WalletFetch) (prices : List (String × ℚ))
    (acc : ℚ × ℚ × ℚ × List (String × Display)) (token : String) :
    ℚ × ℚ × ℚ × List (String × Display) :=
  let balance := f.tokenBal token
  let sym := get_token_symbol token
  let af := if sym = "AFSUI" then balance else acc.1
  let v := if sym = "CERT" then balance else acc.2.1
  let p := priceOf prices sym
  let tv := if 0 < p then acc.2.2.1 + balance * p else acc.2.2.1
  let fb := acc.2.2.2 ++ [(token, format_balance balance p)]
  (af, v, tv, fb)

/-- The dictionary `process_wallet` returns (check.py lines 291-305), with the
displayed row folded into the typed fields. -/
structure WalletResult where
  index : Nat
  address : String
  sui_balance : ℚ
  staked_sui : ℚ
  af_sui : ℚ
  v_sui : ℚ
  token_balances : List (String × ℚ)
  formatted_balances : List (String × Display)
  total_sui : ℚ
  total_value : ℚ
deriving DecidableEq

/-- `process_wallet` (check.py lines 258-305): run the per-wallet proxy retry
loop, seed the fiat total with `(sui + staked) * price(SUI)` when that price is
positive (lines 272-274), fold the token loop (lines 276-286), and assemble
the result with `total_sui = sui + staked + af_sui + v_sui` (line 288). -/
def process_wallet (fetchAll : Option String → WalletFetch) (wallet : String)
    (index : Nat) (token_types : List String) (proxies : List String)
    (prices : List (String × ℚ)) : WalletResult :=
  let attempts := if proxies = [] then 1 else proxies.length
  let f := walletFetchLoop fetchAll proxies token_types index 0 attempts
  let pSui := priceOf prices "SUI"
  let tv0 : ℚ := if 0 < pSui then (f.sui_balance + f.staked_sui) * pSui else 0
  let acc := token_types.foldl (wallet_step f prices) (0, 0, tv0, [])
  let af := acc.1
  let v := acc.2.1
  let tv := acc.2.2.1
  let fb := acc.2.2.2
  { index := index
    address := shorten_address wallet
    sui_balance := f.sui_balance
    staked_sui := f.staked_sui
    af_sui := af
    v_sui := v
    token_balances := token_types.map (fun t => (t, f.tokenBal t))
    formatted_balances := fb
    total_sui := f.sui_balance + f.staked_sui + af + v
    total_value := tv }

/-- The dispatch-and-collect phase of `main` (check.py lines 365-382): one
`process_wallet` future per wallet, submitted with 1-based indices (line 367),
collected by iterating the `futures` LIST IN SUBMISSION ORDER (line 369,
`enumerate(futures)`, not `as_completed`), so the completion order of the
worker pool never influences the order of the collected rows.
`fetchAllOf wallet` abstracts the network behaviour `get_all_balances` exhibits
for that wallet. -/
def mainResults (fetchAllOf : String → Option String → WalletFetch)
    (token_types proxies : List String) (prices : List (String × ℚ)) :
    List String → Nat → List WalletResult
  | [], _ => []
  | w :: ws, i =>
    process_wallet (fetchAllOf w) w i token_types proxies prices
      :: mainResults fetchAllOf token_types proxies prices ws (i + 1)

/-- The balance a collected result reports for a token type
(`result["token_balances"][token]`, check.py line 374). -/
def balOf (r : WalletResult) (token : String) : ℚ :=
  (alookup r.token_balances token).getD 0

/-- `totals["tokens"][token]` after the collection loop (check.py lines 360,
375): the sum over every collected wallet of its balance for `token`,
accumulated for EVERY token of the token list, before and independently of the
significance filter. -/
def totalsTokens (results : List WalletResult) (token : String) : ℚ :=
  (results.map (fun r => balOf r token)).sum

/-- `totals["total_value"]` after the collection loop (check.py lines 361,
380). -/
def totalsTotalValue (results : List WalletResult) : ℚ :=
  (results.map WalletResult.total_value).sum

/-- The significance filter of `main` (check.py lines 384-391): a token is a
report column iff some wallet reported a positive balance for it AND the
aggregate balance times the token's price exceeds `MIN_TOKEN_VALUE`. -/
def significant_tokens (results : List WalletResult) (token_types : List String)
    (prices : List (String × ℚ)) : List String :=
  token_types.filter (fun token =>
    let total_balance := totalsTokens results token
    let token_value := total_balance * priceOf prices (get_token_symbol token)
    (results.any (fun r => decide (0 < balOf r token)))
      && decide (MIN_TOKEN_VALUE < token_value))

/-- One row of `final_table_data` (check.py lines 396-403, built from the
`row` assembled at lines 302-304): index, shortened address, the SUI and
staked cells, one cell per significant token, the total-SUI cell and the
total-value cell. -/
structure FinalRow where
  index : Nat
  address : String
  sui_disp : Display
  staked_disp : Display
  tokenCols : List Display
  total_sui_disp : Display
  total_value_disp : TotalDisp
deriving DecidableEq

/-- Build one final row from a collected result (check.py lines 302-304 and
396-403): the first four and last two columns are kept as produced by
`process_wallet`; the token columns are the formatted cells of exactly the
significant tokens, in filter order. -/
def build_final_row (prices : List (String × ℚ)) (significant : List String)
    (r : WalletResult) : FinalRow :=
  { index := r.index
    address := r.address
    sui_disp := format_balance r.sui_balance (priceOf prices "SUI")
    staked_disp := format_balance r.staked_sui (priceOf prices "SUI")
    tokenCols := significant.map (fun token =>
      (alookup r.formatted_balances token).getD Display.dash)
    total_sui_disp := format_balance r.total_sui (priceOf prices "SUI")
    total_value_disp :=
      if 0 < r.total_value then TotalDisp.value r.total_value else TotalDisp.unavailable }

/-- `final_table_data` restricted to the per-address rows (check.py lines
396-403); the separate ИТОГО totals row appended at line 416 is modelled by
`totalsTokens` / `totalsTotalValue` above. -/
def final_table_data (prices : List (String × ℚ)) (significant : List String)
    (results : List WalletResult) : List FinalRow :=
  results.map (build_final_row prices significant)

/-- Number of requests an attempt-loop outcome consumed. -/
def usedOf : PriceOutcome → Nat
  | PriceOutcome.success _ u => u
  | PriceOutcome.failure u => u

/-! ## Helper lemmas -/

/-- `proxies or [None]` is never empty. -/
theorem proxySeq_cons (proxies : List String) :
    ∃ a l, proxySeq proxies = a :: l := by
  cases proxies with
  | nil => exact ⟨none, [], rfl⟩
  | cons p ps => exact ⟨some p, ps.map some, by simp [proxySeq]⟩

/-- The RPC attempt loop issues at least one request when it has fuel. -/
theorem rpcAttempts_pos (transport : Nat → RpcResp) (k n : Nat) :
    0 < (rpcAttempts transport k (n + 1)).2 := by
  show 0 < (rpcAttempts transport k (n + 1)).2
  unfold rpcAttempts
  cases transport k <;> simp

/-- Under a transport that always raises, the attempt loop exhausts its fuel. -/
theorem rpcAttempts_all_netErr (transport : Nat → RpcResp)
    (ht : ∀ k, transport k = RpcResp.netErr) :
    ∀ n k, rpcAttempts transport k n = (none, n) := by
  intro n
  induction n with
  | zero => intro k; rfl
  | succ n ih => intro k; simp [rpcAttempts, ht k, ih (k + 1)]

/-- The price attempt loop issues at least one request when it has fuel. -/
theorem priceAttempts_used_pos (transport : Nat → RestResp) (k n : Nat) :
    0 < usedOf (priceAttempts transport k (n + 1)) := by
  unfold priceAttempts
  cases transport k with
  | ok data => simp [usedOf]
  | http429 => rcases h : priceAttempts transport (k + 1) n <;> simp [h, usedOf]
  | httpErr => simp [usedOf]
  | netErr => rcases h : priceAttempts transport (k + 1) n <;> simp [h, usedOf]

/-! ## C1 -/

/-- C1 (counterexample): the claim "a terminal decimals failure stores the
fallback 9 in the cache, so a repeated call never issues a second remote
call" is false on the code: with a transport that always raises, the call
returns 9 but the returned cache still lacks the token, and an identical
second call issues `MAX_RETRIES` fresh remote requests. -/
theorem get_token_decimals_fallback_cache_counterexample :
    (get_token_decimals (fun _ => RpcResp.netErr) "0x2::sui::SUI" [] []).1 = 9 ∧
    alookup (get_token_decimals (fun _ => RpcResp.netErr) "0x2::sui::SUI" [] []).2.1
      "0x2::sui::SUI" = none ∧
    (get_token_decimals (fun _ => RpcResp.netErr) "0x2::sui::SUI" []
      (get_token_decimals (fun _ => RpcResp.netErr) "0x2::sui::SUI" [] []).2.1).2.2
      = MAX_RETRIES := by decide

/-- C1 (amended): when the decimals lookup fails terminally (every issued
request raises a network error), `get_token_decimals` returns the fallback
precision 9 but does NOT write it to the decimals cache: the cache comes back
unchanged, so any later call for the same token type against that cache
issues remote requests again. -/
theorem get_token_decimals_fallback_uncached
    (transport : Nat → RpcResp) (token_type : String) (proxies : List String)
    (cache : List (String × Nat))
    (hm : alookup cache token_type = none)
    (ht : ∀ k, transport k = RpcResp.netErr) :
    get_token_decimals transport token_type proxies cache = (9, cache, MAX_RETRIES) ∧
    ∀ t2 p2, 0 < (get_token_decimals t2 token_type p2 cache).2.2 := by
  obtain ⟨a, l, hseq⟩ := proxySeq_cons proxies
  constructor
  · unfold get_token_decimals
    rw [hm, hseq]
    simp [decimalsProxyLoop, rpcAttempts_all_netErr transport ht MAX_RETRIES 0]
  · intro t2 p2
    obtain ⟨a2, l2, hseq2⟩ := proxySeq_cons p2
    unfold get_token_decimals
    rw [hm, hseq2]
    have hpos : 0 < (rpcAttempts t2 0 MAX_RETRIES).2 := rpcAttempts_pos t2 0 2
    rcases h : rpcAttempts t2 0 MAX_RETRIES with ⟨res, used⟩
    rw [h] at hpos
    cases res <;> simp [decimalsProxyLoop, h] <;> exact hpos

/-- C1 (witness): the amended theorem at a concrete all-failing transport. -/
theorem get_token_decimals_fallback_uncached_witness :
    get_token_decimals (fun _ => RpcResp.netErr) "0x1::coin::T" [] [] = (9, [], MAX_RETRIES) ∧
    0 < (get_token_decimals (fun _ => RpcResp.netErr) "0x1::coin::T" [] []).2.2 := by
  have h := get_token_decimals_fallback_uncached (fun _ => RpcResp.netErr)
    "0x1::coin::T" [] [] rfl (fun _ => rfl)
  exact ⟨h.1, h.2 (fun _ => RpcResp.netErr) []⟩

/-! ## C2 -/

/-- C2: evaluation of the code at the claim's failing input.  With two
proxies and a transport that fails deterministically N = 3 times and then
succeeds (N < MAX_RETRIES × max(1, 2) = 6, so the claim predicts success),
`get_token_decimals` nevertheless returns the terminal fallback 9 with the
cache unchanged after issuing only 3 requests: the terminal `return` on line
162 sits inside the `for proxy` loop, so the second proxy is never tried.
The second conjunct shows the first attempt of the second proxy (request
index 3) would have succeeded. -/
theorem get_token_decimals_single_proxy_exhaustion :
    get_token_decimals (fun k => if k < 3 then RpcResp.netErr else RpcResp.ok (some 6))
      "0x1::coin::TOK" ["proxyA", "proxyB"] [] = (9, [], 3) ∧
    (rpcAttempts (fun k => if k < 3 then RpcResp.netErr else RpcResp.ok (some 6))
      3 MAX_RETRIES).1 = some (some 6) := by decide

/-! ## C7 -/

/-- C7 (counterexample): the claim "every address longer than 5 + 3 = 8
characters is shortened" is false on the code: the 9-character address
"123456789" is returned unchanged, not as "12345...789". -/
theorem shorten_address_counterexample :
    shorten_address "123456789" = "123456789" ∧
    shorten_address "123456789" ≠ "12345" ++ "..." ++ "789" := by decide

/-- C7 (amended): `shorten_address` keeps the first 5 characters, an
ellipsis, and the last 3 characters only when the address is longer than
5 + 3 + 3 = 11 characters (the threshold also counts the three ellipsis
dots); any address of length at most 11 is returned unchanged. -/
theorem shorten_address_threshold (address : String) :
    (11 < address.toList.length →
      shorten_address address =
        String.mk (address.toList.take 5 ++ "...".toList
          ++ address.toList.drop (address.toList.length - 3))) ∧
    (address.toList.length ≤ 11 → shorten_address address = address) := by
  constructor
  · intro h
    unfold shorten_address
    rw [if_pos (by omega : address.toList.length > 5 + 3 + 3)]
  · intro h
    unfold shorten_address
    rw [if_neg (by omega : ¬ address.toList.length > 5 + 3 + 3)]

/-- C7 (witness): the amended theorem at a 12-character and a 4-character
address. -/
theorem shorten_address_threshold_witness :
    shorten_address "0x1234567890" = "0x123...890" ∧
    shorten_address "0x12" = "0x12" := by
  constructor
  · have h := (shorten_address_threshold "0x1234567890").1 (by decide)
    rw [h]; decide
  · exact (shorten_address_threshold "0x12").2 (by decide)

/-! ## C9 -/

/-- C9: when the token type is absent from the decimals cache,
`get_token_balance` converts the raw amount with the default precision 9,
and every request it issues is a `suix_getBalance` call — it never performs a
metadata (`suix_getCoinMetadata`) lookup of its own, and it does not touch
the cache (the embedding returns no cache because the source never writes
one here). -/
theorem get_token_balance_default_decimals
    (transport : Nat → RpcResp) (wallet_address token_type : String)
    (cache : List (String × Nat))
    (hm : alookup cache token_type = none) :
    (get_token_balance transport wallet_address token_type cache).1 =
      (match (rpcAttempts transport 0 MAX_RETRIES).1 with
       | some r => ((r.getD 0 : Nat) : ℚ) / 10 ^ 9
       | none => (0 : ℚ)) ∧
    ((get_token_balance transport wallet_address token_type cache).2.map
      RpcPayload.method).all (fun m => m == "suix_getBalance") = true := by
  rcases h : rpcAttempts transport 0 MAX_RETRIES with ⟨res, used⟩
  cases res <;>
    simp [get_token_balance, hm, h, List.all_eq_true, List.mem_replicate]

/-- C9 (witness): the theorem at an empty cache and a transport whose first
response succeeds with raw amount 5. -/
theorem get_token_balance_default_decimals_witness :
    (get_token_balance (fun _ => RpcResp.ok (some 5)) "0xabc" "0x1::coin::TOK" []).1
      = ((5 : Nat) : ℚ) / 10 ^ 9 ∧
    ((get_token_balance (fun _ => RpcResp.ok (some 5)) "0xabc" "0x1::coin::TOK" []).2.map
      RpcPayload.method).all (fun m => m == "suix_getBalance") = true := by
  have h := get_token_balance_default_decimals (fun _ => RpcResp.ok (some 5))
    "0xabc" "0x1::coin::TOK" [] rfl
  exact h

/-! ## C3 -/

/-- After `k` consecutive 429 responses (each of which `continue`s to the NEXT
value of `attempt`, consuming fuel) followed by an HTTP success, the attempt
loop succeeds having issued `k + 1` requests — provided `k` is still within
the fuel budget. -/
theorem priceAttempts_429_then_ok (transport : Nat → RestResp)
    (data : List (String × ℚ)) :
    ∀ fuel k start, k < fuel →
      (∀ j, j < k → transport (start + j) = RestResp.http429) →
      transport (start + k) = RestResp.ok data →
      priceAttempts transport start fuel = PriceOutcome.success data (k + 1) := by
  intro fuel
  induction fuel with
  | zero => intro k start hk; omega
  | succ fuel ih =>
    intro k start hk h429 hok
    cases k with
    | zero =>
      have : transport start = RestResp.ok data := by simpa using hok
      simp [priceAttempts, this]
    | succ k =>
      have h0 : transport start = RestResp.http429 := by
        have := h429 0 (Nat.succ_pos k)
        simpa using this
      have hrec : priceAttempts transport (start + 1) fuel
          = PriceOutcome.success data (k + 1) := by
        refine ih k (start + 1) (by omega) ?_ ?_
        · intro j hj
          have := h429 (j + 1) (by omega)
          simpa [Nat.add_assoc, Nat.add_comm 1 j] using this
        · have := hok
          simpa [Nat.add_assoc, Nat.add_comm 1 k] using this
      simp [priceAttempts, h0, hrec]

/-- C3 (counterexample): the claim "an arbitrary number of consecutive 429
responses followed by one success still yields the correct price mapping" is
false on the code: `MAX_RETRIES` = 3 consecutive 429s exhaust the attempt
budget, and the call returns the zero mapping instead of the mapping the
fourth response would have provided. -/
theorem get_token_prices_429_claim_counterexample :
    (get_token_prices (fun k => if k < 3 then RestResp.http429 else RestResp.ok [("sui", 2)])
      ["SUI"] [] none 0).1 = [("SUI", 0)] ∧
    buildPrices [("sui", 2)] ["SUI"] = [("SUI", 2)] ∧
    (get_token_prices (fun k => if k < 3 then RestResp.http429 else RestResp.ok [("sui", 2)])
      ["SUI"] [] none 0).1 ≠ buildPrices [("sui", 2)] ["SUI"] := by decide

/-- C3 (amended): a 429 from the price feed makes `get_token_prices` wait the
60-second cooldown and retry, but the retry DOES consume an attempt of the
`MAX_RETRIES` budget (the `continue` advances the `for attempt` loop): `k`
consecutive 429s followed by one success yield the correct cached mapping only
while `k < MAX_RETRIES`, at the cost of `k + 1` requests; `MAX_RETRIES`
consecutive 429s yield the zero mapping (see the counterexample). -/
theorem get_token_prices_429_consumes_budget
    (transport : Nat → RestResp) (data : List (String × ℚ))
    (token_symbols proxies : List String)
    (cache : Option (List (String × ℚ) × ℚ)) (now : ℚ) (k : Nat)
    (hmiss : priceFresh cache now = none)
    (hk : k < MAX_RETRIES)
    (h429 : ∀ j, j < k → transport j = RestResp.http429)
    (hok : transport k = RestResp.ok data) :
    get_token_prices transport token_symbols proxies cache now =
      (buildPrices data token_symbols,
       some (buildPrices data token_symbols, now), k + 1) := by
  have hA : priceAttempts transport 0 MAX_RETRIES = PriceOutcome.success data (k + 1) := by
    refine priceAttempts_429_then_ok transport data MAX_RETRIES k 0 hk ?_ ?_
    · intro j hj; simpa using h429 j hj
    · simpa using hok
  obtain ⟨a, l, hseq⟩ := proxySeq_cons proxies
  unfold get_token_prices
  rw [hmiss, hseq]
  simp [pricesProxyLoop, hA]

/-- C3 (witness): the amended theorem with one 429 followed by a success:
the correct mapping is returned and cached after 2 requests. -/
theorem get_token_prices_429_consumes_budget_witness :
    get_token_prices (fun j => if j < 1 then RestResp.http429 else RestResp.ok [("sui", 2)])
      ["SUI"] [] none 0 =
      (buildPrices [("sui", 2)] ["SUI"],
       some (buildPrices [("sui", 2)] ["SUI"], 0), 2) := by
  have h := get_token_prices_429_consumes_budget
    (fun j => if j < 1 then RestResp.http429 else RestResp.ok [("sui", 2)])
    [("sui", 2)] ["SUI"] [] none 0 1 rfl (by decide)
    (fun j hj => by
      have hj0 : j = 0 := by omega
      subst hj0; rfl)
    rfl
  exact h

/-! ## C10 -/

/-- C10: when `get_token_prices` fails terminally — the attempt loop ends in
failure, i.e. a non-429 HTTP error or exhaustion of all retries — it returns
the zero mapping for every requested symbol and leaves the price cache
unchanged; consequently any later call against that same (still stale) cache
issues at least one fresh remote request instead of serving cached zeros. -/
theorem get_token_prices_failure_uncached
    (transport : Nat → RestResp) (token_symbols proxies : List String)
    (cache : Option (List (String × ℚ) × ℚ)) (now : ℚ) (u : Nat)
    (hmiss : priceFresh cache now = none)
    (hfail : priceAttempts transport 0 MAX_RETRIES = PriceOutcome.failure u) :
    get_token_prices transport token_symbols proxies cache now =
      (zeroPrices token_symbols, cache, u) ∧
    ∀ transport2 now2, priceFresh cache now2 = none →
      0 < (get_token_prices transport2 token_symbols proxies cache now2).2.2 := by
  obtain ⟨a, l, hseq⟩ := proxySeq_cons proxies
  constructor
  · unfold get_token_prices
    rw [hmiss, hseq]
    simp [pricesProxyLoop, hfail]
  · intro transport2 now2 hmiss2
    unfold get_token_prices
    rw [hmiss2, hseq]
    have hpos : 0 < usedOf (priceAttempts transport2 0 MAX_RETRIES) :=
      priceAttempts_used_pos transport2 0 2
    rcases h : priceAttempts transport2 0 MAX_RETRIES with ⟨data, used⟩ | ⟨used⟩ <;>
      rw [h] at hpos <;> simpa [pricesProxyLoop, h, usedOf] using hpos

/-- C10 (witness): the theorem at an empty cache and an always-failing
transport: the zero mapping comes back, the cache stays empty, and the
repeated call issues requests again. -/
theorem get_token_prices_failure_uncached_witness :
    get_token_prices (fun _ => RestResp.netErr) ["SUI"] [] none 0 =
      (zeroPrices ["SUI"], none, 3) ∧
    0 < (get_token_prices (fun _ => RestResp.netErr) ["SUI"] [] none 0).2.2 := by
  have h := get_token_prices_failure_uncached (fun _ => RestResp.netErr)
    ["SUI"] [] none 0 3 rfl (by decide)
  exact ⟨h.1, h.2 (fun _ => RestResp.netErr) 0 rfl⟩

/-! ## Fold lemmas for the token loop of process_wallet -/

/-- The running fiat total after the token loop: the seed plus, for every
token with a positive price, `balance * price`. -/
theorem wallet_foldl_tv (f : WalletFetch) (prices : List (String × ℚ)) :
    ∀ (ts : List String) (acc : ℚ × ℚ × ℚ × List (String × Display)),
      (ts.foldl (wallet_step f prices) acc).2.2.1 =
        acc.2.2.1 + (ts.map (fun t =>
          if 0 < priceOf prices (get_token_symbol t)
          then f.tokenBal t * priceOf prices (get_token_symbol t) else 0)).sum := by
  intro ts
  induction ts with
  | nil => intro acc; simp
  | cons t ts ih =>
    intro acc
    simp only [List.foldl_cons, List.map_cons, List.sum_cons]
    rw [ih]
    by_cases h : 0 < priceOf prices (get_token_symbol t)
    · simp [wallet_step, h]
      ring
    · simp [wallet_step, h]

/-- The formatted cells after the token loop: one per token, in list order. -/
theorem wallet_foldl_fb (f : WalletFetch) (prices : List (String × ℚ)) :
    ∀ (ts : List String) (acc : ℚ × ℚ × ℚ × List (String × Display)),
      (ts.foldl (wallet_step f prices) acc).2.2.2 =
        acc.2.2.2 ++ ts.map (fun t =>
          (t, format_balance (f.tokenBal t) (priceOf prices (get_token_symbol t)))) := by
  intro ts
  induction ts with
  | nil => intro acc; simp
  | cons t ts ih =>
    intro acc
    simp only [List.foldl_cons, List.map_cons]
    rw [ih]
    simp [wallet_step]

/-- The AFSUI slot after the token loop: plain assignment semantics, i.e. the
balance of the last token whose symbol is AFSUI, or the initial value. -/
theorem wallet_foldl_af (f : WalletFetch) (prices : List (String × ℚ)) :
    ∀ (ts : List String) (acc : ℚ × ℚ × ℚ × List (String × Display)),
      (ts.foldl (wallet_step f prices) acc).1 =
        ((ts.filter (fun t => decide (get_token_symbol t = "AFSUI"))).map f.tokenBal).foldl
          (fun _ b => b) acc.1 := by
  intro ts
  induction ts with
  | nil => intro acc; simp
  | cons t ts ih =>
    intro acc
    simp only [List.foldl_cons]
    rw [ih]
    by_cases h : get_token_symbol t = "AFSUI" <;>
      simp [wallet_step, h, List.filter_cons]

/-- The CERT slot after the token loop, symmetrically. -/
theorem wallet_foldl_v (f : WalletFetch) (prices : List (String × ℚ)) :
    ∀ (ts : List String) (acc : ℚ × ℚ × ℚ × List (String × Display)),
      (ts.foldl (wallet_step f prices) acc).2.1 =
        ((ts.filter (fun t => decide (get_token_symbol t = "CERT"))).map f.tokenBal).foldl
          (fun _ b => b) acc.2.1 := by
  intro ts
  induction ts with
  | nil => intro acc; simp
  | cons t ts ih =>
    intro acc
    simp only [List.foldl_cons]
    rw [ih]
    by_cases h : get_token_symbol t = "CERT" <;>
      simp [wallet_step, h, List.filter_cons]

/-- Keeping the last element of a list holding at most one element is the
same as summing it. -/
theorem foldl_last_of_short (l : List ℚ) (h : l.length ≤ 1) :
    l.foldl (fun _ b => b) 0 = l.sum := by
  cases l with
  | nil => simp
  | cons a l' =>
    cases l' with
    | nil => simp
    | cons b l'' => simp at h

/-- Summing the balances of the (token, balance) pairs whose token has a given
symbol is summing the balance function over the tokens with that symbol. -/
theorem token_balances_filter_sum (f : WalletFetch) (sym : String) :
    ∀ ts : List String,
      (((ts.map (fun t => (t, f.tokenBal t))).filter
          (fun tb => decide (get_token_symbol tb.1 = sym))).map (fun tb => tb.2)).sum
        = ((ts.filter (fun t => decide (get_token_symbol t = sym))).map f.tokenBal).sum := by
  intro ts
  induction ts with
  | nil => simp
  | cons t ts ih =>
    by_cases h : get_token_symbol t = sym <;> simp [List.filter_cons, h, ih]

/-- The AFSUI slot after the token loop started on the accumulator of
`process_wallet`, when at most one token carries the AFSUI symbol: the sum
of the matching balances. -/
theorem foldl_af_sum (f : WalletFetch) (prices : List (String × ℚ))
    (ts : List String)
    (hA : (ts.filter (fun t => decide (get_token_symbol t = "AFSUI"))).length ≤ 1)
    (tv0 : ℚ) :
    (ts.foldl (wallet_step f prices) (0, 0, tv0, [])).1
      = ((ts.filter (fun t => decide (get_token_symbol t = "AFSUI"))).map f.tokenBal).sum := by
  rw [wallet_foldl_af]
  exact foldl_last_of_short _ (by simpa using hA)

/-- The CERT slot, symmetrically. -/
theorem foldl_v_sum (f : WalletFetch) (prices : List (String × ℚ))
    (ts : List String)
    (hC : (ts.filter (fun t => decide (get_token_symbol t = "CERT"))).length ≤ 1)
    (tv0 : ℚ) :
    (ts.foldl (wallet_step f prices) (0, 0, tv0, [])).2.1
      = ((ts.filter (fun t => decide (get_token_symbol t = "CERT"))).map f.tokenBal).sum := by
  rw [wallet_foldl_v]
  exact foldl_last_of_short _ (by simpa using hC)

/-- The per-wallet fiat total, in closed form (check.py lines 272-286). -/
theorem process_wallet_total_value (fetchAll : Option String → WalletFetch)
    (wallet : String) (index : Nat) (token_types proxies : List String)
    (prices : List (String × ℚ)) :
    (process_wallet fetchAll wallet index token_types proxies prices).total_value =
      (if 0 < priceOf prices "SUI"
       then ((process_wallet fetchAll wallet index token_types proxies prices).sui_balance
          + (process_wallet fetchAll wallet index token_types proxies prices).staked_sui)
          * priceOf prices "SUI"
       else 0)
      + ((process_wallet fetchAll wallet index token_types proxies prices).token_balances.map
          (fun tb => if 0 < priceOf prices (get_token_symbol tb.1)
            then tb.2 * priceOf prices (get_token_symbol tb.1) else 0)).sum := by
  simp only [process_wallet]
  rw [wallet_foldl_tv]
  simp [List.map_map, Function.comp_def]

/-! ## C6 -/

/-- C6: a wallet's total fiat value is the sum of `balance * price` over the
native balance, the staked balance (both priced by SUI), and every token whose
price is known and positive; a balance whose price is 0.0 contributes nothing
to the total, while every token still appears in the displayed
(formatted) balances. -/
theorem process_wallet_total_value_spec (fetchAll : Option String → WalletFetch)
    (wallet : String) (index : Nat) (token_types proxies : List String)
    (prices : List (String × ℚ)) :
    (process_wallet fetchAll wallet index token_types proxies prices).total_value =
      (if 0 < priceOf prices "SUI"
       then ((process_wallet fetchAll wallet index token_types proxies prices).sui_balance
          + (process_wallet fetchAll wallet index token_types proxies prices).staked_sui)
          * priceOf prices "SUI"
       else 0)
      + ((process_wallet fetchAll wallet index token_types proxies prices).token_balances.map
          (fun tb => if 0 < priceOf prices (get_token_symbol tb.1)
            then tb.2 * priceOf prices (get_token_symbol tb.1) else 0)).sum ∧
    (process_wallet fetchAll wallet index token_types proxies prices).formatted_balances =
      (process_wallet fetchAll wallet index token_types proxies prices).token_balances.map
        (fun tb => (tb.1, format_balance tb.2 (priceOf prices (get_token_symbol tb.1)))) := by
  refine ⟨process_wallet_total_value fetchAll wallet index token_types proxies prices, ?_⟩
  simp only [process_wallet]
  rw [wallet_foldl_fb]
  simp [List.map_map, Function.comp_def]

/-! ## C8 -/

/-- C8: provided the token list mentions at most one token type whose symbol
is AFSUI and at most one whose symbol is CERT (as the two designated
liquid-staked variants are configured), the derived total-SUI figure equals
native + staked + the balances of exactly those designated tokens; the
balances of every other token are excluded. -/
theorem total_sui_includes_liquid_staked (fetchAll : Option String → WalletFetch)
    (wallet : String) (index : Nat) (token_types proxies : List String)
    (prices : List (String × ℚ))
    (hA : (token_types.filter (fun t => decide (get_token_symbol t = "AFSUI"))).length ≤ 1)
    (hC : (token_types.filter (fun t => decide (get_token_symbol t = "CERT"))).length ≤ 1) :
    (process_wallet fetchAll wallet index token_types proxies prices).total_sui =
      (process_wallet fetchAll wallet index token_types proxies prices).sui_balance
      + (process_wallet fetchAll wallet index token_types proxies prices).staked_sui
      + (((process_wallet fetchAll wallet index token_types proxies prices).token_balances.filter
          (fun tb => decide (get_token_symbol tb.1 = "AFSUI"))).map (fun tb => tb.2)).sum
      + (((process_wallet fetchAll wallet index token_types proxies prices).token_balances.filter
          (fun tb => decide (get_token_symbol tb.1 = "CERT"))).map (fun tb => tb.2)).sum := by
  simp only [process_wallet]
  rw [foldl_af_sum _ _ _ hA, foldl_v_sum _ _ _ hC,
    token_balances_filter_sum, token_balances_filter_sum]

/-- C8 (witness): the theorem at a wallet holding 10 native, 2 staked, 3 of
the AFSUI token, 4 of the CERT token and 7 of a USDC token: the total-SUI
figure is 10 + 2 + 3 + 4 = 19, excluding the USDC balance. -/
theorem total_sui_includes_liquid_staked_witness :
    (process_wallet
      (fun _ => ⟨10, 2, fun t =>
        if t = "0xa::afsui::AFSUI" then 3
        else if t = "0xc::cert::CERT" then 4 else 7⟩)
      "0xwallet" 1 ["0xa::afsui::AFSUI", "0xc::cert::CERT", "0xu::usdc::USDC"]
      [] []).total_sui = 19 := by
  have h := total_sui_includes_liquid_staked
    (fun _ => ⟨10, 2, fun t =>
      if t = "0xa::afsui::AFSUI" then 3
      else if t = "0xc::cert::CERT" then 4 else 7⟩)
    "0xwallet" 1 ["0xa::afsui::AFSUI", "0xc::cert::CERT", "0xu::usdc::USDC"]
    [] [] (by decide) (by decide)
  rw [h]
  show (10 : ℚ) + 2 + (3 + 0) + (4 + 0) = 19
  norm_num

/-! ## C4 -/

/-- The address field of a processed wallet is its shortened input address. -/
theorem process_wallet_address (fetchAll : Option String → WalletFetch)
    (wallet : String) (index : Nat) (token_types proxies : List String)
    (prices : List (String × ℚ)) :
    (process_wallet fetchAll wallet index token_types proxies prices).address
      = shorten_address wallet := rfl

/-- The index field of a processed wallet is its submission index. -/
theorem process_wallet_index (fetchAll : Option String → WalletFetch)
    (wallet : String) (index : Nat) (token_types proxies : List String)
    (prices : List (String × ℚ)) :
    (process_wallet fetchAll wallet index token_types proxies prices).index
      = index := rfl

/-- The collected results carry the shortened addresses in input order. -/
theorem mainResults_map_address (fetchAllOf : String → Option String → WalletFetch)
    (token_types proxies : List String) (prices : List (String × ℚ)) :
    ∀ (ws : List String) (i : Nat),
      (mainResults fetchAllOf token_types proxies prices ws i).map
        WalletResult.address = ws.map (fun w => shorten_address w) := by
  intro ws
  induction ws with
  | nil => intro i; rfl
  | cons w ws ih =>
    intro i
    simp [mainResults, ih (i + 1), process_wallet_address]

/-- The collected results carry consecutive indices from the start index. -/
theorem mainResults_map_index (fetchAllOf : String → Option String → WalletFetch)
    (token_types proxies : List String) (prices : List (String × ℚ)) :
    ∀ (ws : List String) (i : Nat),
      (mainResults fetchAllOf token_types proxies prices ws i).map
        WalletResult.index = List.range' i ws.length := by
  intro ws
  induction ws with
  | nil => intro i; rfl
  | cons w ws ih =>
    intro i
    simp [mainResults, List.range'_succ, ih (i + 1), process_wallet_index]

/-- One collected result per input wallet. -/
theorem mainResults_length (fetchAllOf : String → Option String → WalletFetch)
    (token_types proxies : List String) (prices : List (String × ℚ)) :
    ∀ (ws : List String) (i : Nat),
      (mainResults fetchAllOf token_types proxies prices ws i).length = ws.length := by
  intro ws
  induction ws with
  | nil => intro i; rfl
  | cons w ws ih => intro i; simp [mainResults, ih (i + 1)]

/-- C4: for every input address list — and for EVERY network behaviour
`fetchAllOf`, including one where every sub-query degrades to zero — the
final report table contains exactly one row per address, carrying the
shortened addresses in the original input order with indices 1, 2, ….
The collection loop iterates the futures list in submission order (check.py
line 369), so worker completion order cannot influence this, and no
sub-query failure removes a row; the statement holds for every
`significant` column selection. -/
theorem report_rows_in_input_order (fetchAllOf : String → Option String → WalletFetch)
    (wallets token_types proxies : List String) (prices : List (String × ℚ))
    (significant : List String) :
    (final_table_data prices significant
      (mainResults fetchAllOf token_types proxies prices wallets 1)).length
      = wallets.length ∧
    (final_table_data prices significant
      (mainResults fetchAllOf token_types proxies prices wallets 1)).map
        FinalRow.address = wallets.map (fun w => shorten_address w) ∧
    (final_table_data prices significant
      (mainResults fetchAllOf token_types proxies prices wallets 1)).map
        FinalRow.index = List.range' 1 wallets.length := by
  refine ⟨?_, ?_, ?_⟩
  · simp [final_table_data,
      mainResults_length fetchAllOf token_types proxies prices wallets 1]
  · rw [final_table_data, List.map_map]
    have : FinalRow.address ∘ build_final_row prices significant
        = WalletResult.address := rfl
    rw [this, mainResults_map_address]
  · rw [final_table_data, List.map_map]
    have : FinalRow.index ∘ build_final_row prices significant
        = WalletResult.index := rfl
    rw [this, mainResults_map_index]

/-! ## C5 -/

/-- The token-balance keys of a processed wallet are exactly the token list. -/
theorem process_wallet_token_keys (fetchAll : Option String → WalletFetch)
    (wallet : String) (index : Nat) (token_types proxies : List String)
    (prices : List (String × ℚ)) :
    (process_wallet fetchAll wallet index token_types proxies prices).token_balances.map
      Prod.fst = token_types := by
  simp [process_wallet, List.map_map, Function.comp_def]

/-- Every collected result keeps a balance entry for every token of the token
list, significant or not. -/
theorem mainResults_token_keys (fetchAllOf : String → Option String → WalletFetch)
    (token_types proxies : List String) (prices : List (String × ℚ)) :
    ∀ (ws : List String) (i : Nat),
      (mainResults fetchAllOf token_types proxies prices ws i).map
        (fun r => r.token_balances.map Prod.fst) = ws.map (fun _ => token_types) := by
  intro ws
  induction ws with
  | nil => intro i; rfl
  | cons w ws ih =>
    intro i
    simp only [mainResults, List.map_cons, ih (i + 1),
      process_wallet_token_keys]

/-- The folded grand fiat total is the sum, over the collected wallets, of the
closed-form per-wallet total — which ranges over EVERY token of the token
list, independently of the significance filter. -/
theorem totalsTotalValue_mainResults (fetchAllOf : String → Option String → WalletFetch)
    (token_types proxies : List String) (prices : List (String × ℚ)) :
    ∀ (ws : List String) (i : Nat),
      totalsTotalValue (mainResults fetchAllOf token_types proxies prices ws i) =
        ((mainResults fetchAllOf token_types proxies prices ws i).map (fun r =>
          (if 0 < priceOf prices "SUI"
           then (r.sui_balance + r.staked_sui) * priceOf prices "SUI" else 0)
          + (r.token_balances.map (fun tb =>
              if 0 < priceOf prices (get_token_symbol tb.1)
              then tb.2 * priceOf prices (get_token_symbol tb.1) else 0)).sum)).sum := by
  intro ws
  induction ws with
  | nil => intro i; rfl
  | cons w ws ih =>
    intro i
    simp only [mainResults, List.map_cons, List.sum_cons, totalsTotalValue] at ih ⊢
    rw [← ih (i + 1), process_wallet_total_value]

/-- C5: a token of the token list appears as a report column iff some wallet
reported a positive balance for it AND the aggregate balance across all
wallets times the token's price exceeds `MIN_TOKEN_VALUE` = $0.05.  Tokens
failing the filter stay in the portfolio totals: the grand fiat total sums,
for every wallet, contributions of EVERY token of the token list (second
conjunct), and every collected row keeps a balance entry for every token of
the token list (third conjunct). -/
theorem significant_token_columns_iff (fetchAllOf : String → Option String → WalletFetch)
    (wallets token_types proxies : List String) (prices : List (String × ℚ))
    (token : String) :
    (token ∈ significant_tokens
        (mainResults fetchAllOf token_types proxies prices wallets 1) token_types prices
      ↔ token ∈ token_types ∧
        (∃ r ∈ mainResults fetchAllOf token_types proxies prices wallets 1,
          0 < balOf r token) ∧
        MIN_TOKEN_VALUE <
          totalsTokens (mainResults fetchAllOf token_types proxies prices wallets 1) token
            * priceOf prices (get_token_symbol token)) ∧
    totalsTotalValue (mainResults fetchAllOf token_types proxies prices wallets 1) =
      ((mainResults fetchAllOf token_types proxies prices wallets 1).map (fun r =>
        (if 0 < priceOf prices "SUI"
         then (r.sui_balance + r.staked_sui) * priceOf prices "SUI" else 0)
        + (r.token_balances.map (fun tb =>
            if 0 < priceOf prices (get_token_symbol tb.1)
            then tb.2 * priceOf prices (get_token_symbol tb.1) else 0)).sum)).sum ∧
    (mainResults fetchAllOf token_types proxies prices wallets 1).map
      (fun r => r.token_balances.map Prod.fst) = wallets.map (fun _ => token_types) := by
  refine ⟨?_, totalsTotalValue_mainResults fetchAllOf token_types proxies prices wallets 1,
    mainResults_token_keys fetchAllOf token_types proxies prices wallets 1⟩
  simp only [significant_tokens, List.mem_filter, Bool.and_eq_true,
    List.any_eq_true, decide_eq_true_eq, and_assoc]

end SuiChecker
